import Mathlib

/-!
# Verification of the jsvm event loop (plugins/jsvm/event_loop.go)

A shallow embedding of the goja event loop's scheduling state and of the
operations the specification talks about: `clearTimeout` / `clearInterval` /
`clearImmediate`, the fire paths `doTimeout` / `doImmediate`, `stopTimers`,
`Stop`, `setRunning` / `Run` / `Start`, the auxiliary job queue
(`addAuxJob` / `runAux`), the interval delay clamping in `addInterval`,
the generic slice helper `findAndDelete`, and the `runningChan` rendezvous
used by `StartInForeground`.

Timers, intervals and immediates are heap objects reached through Go
pointers; we model pointers as natural-number ids and each of the three
heaps as an association list from id to the object's mutable fields
(`cancelled`, and for intervals whether `stopChan` has been closed).
Go's `nil` pointer is `Option.none`.  `jobCount` (an `int32` in Go) is
modeled as `Int`; no scenario here approaches the `int32` bounds.
Running a scheduled callback is recorded in a `userRuns` log instead of
executing an opaque closure.

Go slices alias a backing array: `findAndDelete` compacts the slice's
elements in place and returns a shorter prefix of the *same* backing
array, and `stopTimers` ranges over a slice header captured once while
the loop body shrinks the live slice in place.  To be faithful to that
aliasing, a tracking list is modeled as a `GoSlice`: a backing `List Nat`
whose length never changes during these operations, plus the slice
length `len`; the visible slice is `backing.take len`.
-/

/-- A Go slice of pointers (ids): a backing array plus the slice length.
The operations modeled here only ever write elements in place and shrink
the length, so the backing list keeps its length. -/
structure GoSlice where
  backing : List Nat
  len : Nat
deriving DecidableEq

/-- The elements visible through the slice header. -/
def GoSlice.view (sl : GoSlice) : List Nat := sl.backing.take sl.len

/-- Well-formedness of a slice header: the length is within the backing array. -/
def GoSlice.wf (sl : GoSlice) : Prop := sl.len ≤ sl.backing.length

instance (sl : GoSlice) : Decidable sl.wf := by unfold GoSlice.wf; infer_instance

/-- Loop body of `findAndDelete` (event_loop.go:504-513):

    index := 0
    for _, i := range s {
        if i != item {
            s[index] = i
            index++
        }
    }
    return s[:index]

`fuel` is the number of iterations left (`len - j` for the captured slice
length `len`); the j-th element is read from the backing array, which is
also being written at position `index ≤ j`. -/
def fadGo (item : Nat) (backing : List Nat) (j index fuel : Nat) : List Nat × Nat :=
  match fuel with
  | 0 => (backing, index)
  | fuel + 1 =>
    if backing.getD j 0 ≠ item then
      fadGo item (backing.set index (backing.getD j 0)) (j + 1) (index + 1) fuel
    else fadGo item backing (j + 1) index fuel

/-- `findAndDelete(s, item)` (event_loop.go:504-513): compacts, in place, the
elements of `s` that are not pointer-identical to `item`, and returns the
prefix `s[:index]` of the same backing array. -/
def findAndDelete (sl : GoSlice) (item : Nat) : GoSlice :=
  let r := fadGo item sl.backing 0 0 sl.len
  ⟨r.1, r.2⟩

/-- Mutable fields of a `*Timer` (`job` embedded struct). -/
structure TimerObj where
  cancelled : Bool
deriving DecidableEq

/-- Mutable fields of an `*Interval`: the `job.cancelled` flag and whether
`stopChan` has been closed (a second `close` would be a fault in Go). -/
structure IntervalObj where
  cancelled : Bool
  stopChanClosed : Bool
deriving DecidableEq

/-- Mutable fields of an `*Immediate`. -/
structure ImmediateObj where
  cancelled : Bool
deriving DecidableEq

/-- Update the object stored at pointer `k` of a heap. -/
def updHeap {α : Type} (h : List (Nat × α)) (k : Nat) (f : α → α) : List (Nat × α) :=
  h.map (fun p => if p.1 = k then (p.1, f p.2) else p)

/-- The scheduling state of an `EventLoop` (event_loop.go:36-59): the three
object heaps, the three tracking slices `timers` / `intervals` /
`immediates`, the liveness counter `jobCount`, the `running` flag, the
`canRun` atomic, and a log of user-callback invocations. -/
structure LoopState where
  timersHeap : List (Nat × TimerObj)
  intervalsHeap : List (Nat × IntervalObj)
  immediatesHeap : List (Nat × ImmediateObj)
  timers : GoSlice
  intervals : GoSlice
  immediates : GoSlice
  jobCount : Int
  running : Bool
  canRun : Bool
  userRuns : List Nat
deriving DecidableEq

/-- `clearTimeout(t)` (event_loop.go:462-469): if `t != nil && !t.cancelled`,
stop the OS timer (no loop-state effect), set `cancelled`, decrement
`jobCount`, and remove `t` from `loop.timers` with `findAndDelete`. -/
def clearTimeout (s : LoopState) (h : Option Nat) : LoopState :=
  match h with
  | none => s
  | some t =>
    match List.lookup t s.timersHeap with
    | none => s
    | some obj =>
      if obj.cancelled then s
      else
        { s with
          timersHeap := updHeap s.timersHeap t (fun o => { o with cancelled := true })
          jobCount := s.jobCount - 1
          timers := findAndDelete s.timers t }

/-- `clearInterval(i)` (event_loop.go:471-479): if `i != nil && !i.cancelled`,
set `cancelled`, close `stopChan`, decrement `jobCount`, and remove `i`
from `loop.intervals` with `findAndDelete`. -/
def clearInterval (s : LoopState) (h : Option Nat) : LoopState :=
  match h with
  | none => s
  | some i =>
    match List.lookup i s.intervalsHeap with
    | none => s
    | some obj =>
      if obj.cancelled then s
      else
        { s with
          intervalsHeap :=
            updHeap s.intervalsHeap i
              (fun o => { o with cancelled := true, stopChanClosed := true })
          jobCount := s.jobCount - 1
          intervals := findAndDelete s.intervals i }

/-- `clearImmediate(i)` (event_loop.go:481-487): if `i != nil && !i.cancelled`,
set `cancelled`, decrement `jobCount`, and remove `i` from
`loop.immediates` with `findAndDelete`. -/
def clearImmediate (s : LoopState) (h : Option Nat) : LoopState :=
  match h with
  | none => s
  | some i =>
    match List.lookup i s.immediatesHeap with
    | none => s
    | some obj =>
      if obj.cancelled then s
      else
        { s with
          immediatesHeap := updHeap s.immediatesHeap i (fun o => { o with cancelled := true })
          jobCount := s.jobCount - 1
          immediates := findAndDelete s.immediates i }

/-- `doTimeout(t)` (event_loop.go:440-446) for a timer created by
`setTimeout`: if `!t.cancelled`, set `cancelled`, decrement `jobCount`,
then call `t.fn()`.  For a `setTimeout` timer, `t.fn` is the wrapper
built in `schedule` (event_loop.go:144-151): it invokes the user callback
(logged in `userRuns`) and then, since the timer is not repeating, calls
`loop.clearTimeout(t)`. -/
def doTimeout (s : LoopState) (t : Nat) : LoopState :=
  match List.lookup t s.timersHeap with
  | none => s
  | some obj =>
    if obj.cancelled then s
    else
      let s1 := { s with
                  timersHeap := updHeap s.timersHeap t (fun o => { o with cancelled := true })
                  jobCount := s.jobCount - 1 }
      let s2 := { s1 with userRuns := s1.userRuns ++ [t] }
      clearTimeout s2 (some t)

/-- `doImmediate(i)` (event_loop.go:454-460) for an immediate created by
`setImmediate`: if `!i.cancelled`, set `cancelled`, decrement `jobCount`,
then call `i.fn()`, the wrapper from `setImmediate` (event_loop.go:181-186):
it invokes the user callback and then calls `loop.clearImmediate(i)`. -/
def doImmediate (s : LoopState) (i : Nat) : LoopState :=
  match List.lookup i s.immediatesHeap with
  | none => s
  | some obj =>
    if obj.cancelled then s
    else
      let s1 := { s with
                  immediatesHeap := updHeap s.immediatesHeap i (fun o => { o with cancelled := true })
                  jobCount := s.jobCount - 1 }
      let s2 := { s1 with userRuns := s1.userRuns ++ [i] }
      clearImmediate s2 (some i)

/-- The loop `for _, i := range loop.immediates { loop.clearImmediate(i) }`
(event_loop.go:317-319).  Go's `range` evaluates `loop.immediates` once,
capturing a slice header over the loop's backing array with the length at
entry; `fuel` is the number of iterations left of that captured length,
and `j` the current position.  Each iteration reads the j-th element from
the *live* backing array (`findAndDelete` inside `clearImmediate`
compacts it in place, never reallocating), so the read goes through the
current state. -/
def stopImmediatesGo (s : LoopState) (j fuel : Nat) : LoopState :=
  match fuel with
  | 0 => s
  | fuel + 1 =>
    let i := s.immediates.backing.getD j 0
    stopImmediatesGo (clearImmediate s (some i)) (j + 1) fuel

/-- The loop `for _, i := range loop.intervals { loop.clearInterval(i) }`
(event_loop.go:320-322), with the same captured-header semantics as
`stopImmediatesGo`. -/
def stopIntervalsGo (s : LoopState) (j fuel : Nat) : LoopState :=
  match fuel with
  | 0 => s
  | fuel + 1 =>
    let i := s.intervals.backing.getD j 0
    stopIntervalsGo (clearInterval s (some i)) (j + 1) fuel

/-- The loop `for _, t := range loop.timers { loop.clearTimeout(t) }`
(event_loop.go:323-325), with the same captured-header semantics as
`stopImmediatesGo`. -/
def stopTimeoutsGo (s : LoopState) (j fuel : Nat) : LoopState :=
  match fuel with
  | 0 => s
  | fuel + 1 =>
    let t := s.timers.backing.getD j 0
    stopTimeoutsGo (clearTimeout s (some t)) (j + 1) fuel

/-- `stopTimers()` (event_loop.go:316-326): range over the immediates,
then the intervals, then the timers, clearing each element read.  Each
`range` captures its slice length at the entry of its own loop. -/
def stopTimers (s : LoopState) : LoopState :=
  let s1 := stopImmediatesGo s 0 s.immediates.len
  let s2 := stopIntervalsGo s1 0 s1.intervals.len
  stopTimeoutsGo s2 0 s2.timers.len

/-- `Stop()` (event_loop.go:292-302): lock, run `stopTimers()`, then while
`running` clear `canRun`, wake the loop and wait on the condition
variable; finally return `int(loop.jobCount)`.  The blocking wait needs
the loop goroutine and cannot resolve in this sequential model, so `Stop`
is modeled on loops whose `running` flag is false after `stopTimers`
(which preserves it): there the wait loop body never executes and the
call returns at once; a running loop yields `none`. -/
def Stop (s : LoopState) : Option (LoopState × Int) :=
  let s1 := stopTimers s
  if s1.running then none
  else some (s1, s1.jobCount)

/-- `setRunning()` (event_loop.go:242-251): under the stop lock, panic with
"Loop is already started" if `running` is set; otherwise `_running(true)`
sets `running` (its non-blocking `runningChan` send has no loop-state
effect) and `canRun` is stored as 1.  A panic is `none`. -/
def setRunning (s : LoopState) : Option LoopState :=
  if s.running then none
  else some { s with running := true, canRun := true }

/-- `Run(fn)` (event_loop.go:259-263) begins with `setRunning()`, so it is
reached past this point only when the loop was not already running; the
subsequent `fn(loop.vm)` and tick loop `run(false)` run the loop
goroutine and are outside this sequential model. -/
def Run (s : LoopState) : Option LoopState :=
  setRunning s

/-- `Start()` (event_loop.go:267-270) begins with `setRunning()` and then
launches `go loop.run(true)`; the spawned tick loop is outside this
sequential model. -/
def Start (s : LoopState) : Option LoopState :=
  setRunning s

/-- The auxiliary job queue of the loop (fields `auxJobs` / `auxJobsSpare`
of `EventLoop`), with closures abstracted as ids and execution recorded
in a log. -/
structure AuxState where
  auxJobs : List Nat
  auxJobsSpare : List Nat
  executed : List Nat
deriving DecidableEq

/-- `addAuxJob(fn)` (event_loop.go:394-399): under the aux lock, append
`fn` to `auxJobs` (the wakeup signal has no queue-state effect). -/
def addAuxJob (s : AuxState) (fn : Nat) : AuxState :=
  { s with auxJobs := s.auxJobs ++ [fn] }

/-- `runAux()` (event_loop.go:340-350): under the aux lock take
`jobs := auxJobs` and swap in the spare buffer; then run each job of
`jobs` in order, nil-ing its entry; finally keep `jobs[:0]` as the new
spare buffer. -/
def runAux (s : AuxState) : AuxState :=
  let jobs := s.auxJobs
  { auxJobs := s.auxJobsSpare
    auxJobsSpare := []
    executed := s.executed ++ jobs }

/-- `time.Millisecond` in nanoseconds (`time.Duration` is an int64
nanosecond count). -/
def millisecond : Int := 1000000

/-- The delay normalization at the top of `addInterval` (event_loop.go:414-418):
`if timeout <= 0 { timeout = time.Millisecond }` — an int64 comparison and
assignment, no arithmetic, so exact. -/
def addIntervalTimeout (timeout : Int) : Int :=
  if timeout ≤ 0 then millisecond else timeout

/-- Two's-complement reinterpretation of an integer as a signed 64-bit
value: the representative congruent mod `2^64` lying in
`[-2^63, 2^63)`.  Go arithmetic on `int64` (hence on `time.Duration`)
wraps around according to this. -/
def toInt64 (n : Int) : Int :=
  if n % (2 : Int) ^ 64 < 2 ^ 63 then n % (2 : Int) ^ 64 else n % (2 : Int) ^ 64 - 2 ^ 64

/-- The ticker period an interval created by `setInterval(fn, delay)` ends
up with: `schedule` passes `time.Duration(delay)*time.Millisecond` to
`addInterval` (event_loop.go:154), which normalizes it.  `delay` is the
`int64` produced by goja's `ToInteger` and the multiplication is an
int64 multiplication, which wraps on overflow. -/
def setIntervalDelay (delay : Int) : Int :=
  addIntervalTimeout (toInt64 (delay * millisecond))

/-- One attempted non-blocking send on `runningChan`, i.e. one execution of
`_running` (event_loop.go:386-392), whose `select { case loop.runningChan <- r:
default: }` delivers `r` only if a receiver is already blocked on the
unbuffered channel and otherwise falls through to `default`.
`afterRecvBlocked` records whether the attempt happens after
`StartInForeground` has blocked on `<-loop.runningChan`. -/
structure NbSend where
  value : Bool
  afterRecvBlocked : Bool
deriving DecidableEq

/-- What a receive blocked on `runningChan` obtains, given the ordered
non-blocking send attempts: the first attempt made while the receiver is
blocked delivers its value; attempts made before the receiver blocked hit
the `default` branch and are dropped; `none` means the receive never
completes. -/
def recvFirstMatch (sends : List NbSend) : Option Bool :=
  (sends.find? (fun e => e.afterRecvBlocked)).map (fun e => e.value)

/-- The `runningChan` send attempts during `StartInForeground()`
(event_loop.go:276-282) on a loop whose tick loop eventually exits, in
happens-before order read off the source: `setRunning()` runs
`loop._running(true)` in the caller's goroutine *before* the caller
reaches `<-loop.runningChan` (the direct send in `setRunning`,
event_loop.go:249, is commented out); the only later send attempt is
`loop._running(false)` at the end of `run` (event_loop.go:373-375), which
happens while the caller is still blocked. -/
def startInForegroundSends : List NbSend :=
  [⟨true, false⟩, ⟨false, true⟩]

/-! ## Helper lemmas -/

/-- `toInt64` is the identity on values already representable in a
signed 64-bit integer. -/
theorem toInt64_eq_self (n : Int) (h1 : -(2 ^ 63) ≤ n) (h2 : n < 2 ^ 63) : toInt64 n = n := by
  unfold toInt64
  split <;> omega

theorem lookup_updHeap_self {α : Type} (h : List (Nat × α)) (k : Nat) (f : α → α) :
    List.lookup k (updHeap h k f) = (List.lookup k h).map f := by
  induction h with
  | nil => rfl
  | cons p rest ih =>
    rcases p with ⟨k', v⟩
    by_cases hk : k' = k
    · subst hk
      simp only [updHeap, List.map_cons, if_pos rfl]
      rw [List.lookup_cons, List.lookup_cons]
      simp
    · have hb : (k == k') = false := beq_false_of_ne (fun hx => hk hx.symm)
      simp only [updHeap, List.map_cons, if_neg hk]
      rw [List.lookup_cons, List.lookup_cons, hb]
      exact ih

theorem lookup_updHeap_ne {α : Type} (h : List (Nat × α)) (k k' : Nat) (f : α → α)
    (hne : k' ≠ k) :
    List.lookup k' (updHeap h k f) = List.lookup k' h := by
  induction h with
  | nil => rfl
  | cons p rest ih =>
    rcases p with ⟨a, v⟩
    by_cases ha : a = k
    · subst ha
      have hb : (k' == a) = false := beq_false_of_ne hne
      simp only [updHeap, List.map_cons, eq_self_iff_true, if_true]
      rw [List.lookup_cons, List.lookup_cons, hb]
      exact ih
    · simp only [updHeap, List.map_cons, if_neg ha]
      rw [List.lookup_cons, List.lookup_cons]
      cases hb : (k' == a) with
      | true => rfl
      | false => exact ih

/-- What one run of the `findAndDelete` loop does, starting at read
position `j` and write position `index`: the visible prefix of the result
is the already-compacted prefix followed by the kept elements among the
`fuel` still to be read, the returned length counts them, and the backing
array keeps its length (all writes are in place). -/
theorem fadGo_spec (item : Nat) (fuel : Nat) :
    ∀ backing j index, index ≤ j → j + fuel ≤ backing.length →
      (fadGo item backing j index fuel).1.take (fadGo item backing j index fuel).2
          = backing.take index ++ ((backing.drop j).take fuel).filter (fun i => i ≠ item)
      ∧ (fadGo item backing j index fuel).2
          = index + (((backing.drop j).take fuel).filter (fun i => i ≠ item)).length
      ∧ (fadGo item backing j index fuel).1.length = backing.length := by
  induction fuel with
  | zero =>
    intro backing j index _ _
    simp [fadGo]
  | succ fuel ih =>
    intro backing j index hij hlen
    have hj : j < backing.length := by omega
    have hread : backing.getD j 0 = backing[j] := List.getD_eq_getElem backing 0 hj
    have hdrop : backing.drop j = backing[j] :: backing.drop (j + 1) :=
      List.drop_eq_getElem_cons hj
    by_cases hitem : backing[j] = item
    · have hstep : fadGo item backing j index (fuel + 1) = fadGo item backing (j + 1) index fuel := by
        rw [fadGo, hread, if_neg (fun hc => hc hitem)]
      have h2 := ih backing (j + 1) index (by omega) (by omega)
      rw [hstep, hdrop]
      simp only [List.take_succ_cons, List.filter_cons, hitem]
      simpa using h2
    · have hidx : index < backing.length := by omega
      have hstep : fadGo item backing j index (fuel + 1)
          = fadGo item (backing.set index backing[j]) (j + 1) (index + 1) fuel := by
        rw [fadGo, hread, if_pos hitem]
      have hset : backing.set index backing[j]
          = backing.take index ++ backing[j] :: backing.drop (index + 1) :=
        List.set_eq_take_cons_drop _ hidx
      have hlenset : (backing.set index backing[j]).length = backing.length := by
        simp
      have hlt : (backing.take index).length = index := by
        simp [List.length_take]
        omega
      have h2 := ih (backing.set index backing[j]) (j + 1) (index + 1) (by omega) (by omega)
      have htake : (backing.set index backing[j]).take (index + 1)
          = backing.take index ++ [backing[j]] := by
        rw [hset]
        calc (backing.take index ++ backing[j] :: backing.drop (index + 1)).take (index + 1)
            = (backing.take index ++ backing[j] :: backing.drop (index + 1)).take
                ((backing.take index).length + 1) := by rw [hlt]
          _ = backing.take index ++ (backing[j] :: backing.drop (index + 1)).take 1 :=
              List.take_append ..
          _ = backing.take index ++ [backing[j]] := by simp
      have hdropset : (backing.set index backing[j]).drop (j + 1) = backing.drop (j + 1) := by
        rw [hset]
        calc (backing.take index ++ backing[j] :: backing.drop (index + 1)).drop (j + 1)
            = (backing.take index ++ backing[j] :: backing.drop (index + 1)).drop
                ((backing.take index).length + (j + 1 - index)) := by rw [hlt]; congr 1; omega
          _ = (backing[j] :: backing.drop (index + 1)).drop (j + 1 - index) :=
              List.drop_append ..
          _ = (backing.drop (index + 1)).drop (j - index) := by
              have hsub : j + 1 - index = (j - index) + 1 := by omega
              rw [hsub, List.drop_succ_cons]
          _ = backing.drop (j + 1) := by
              rw [List.drop_drop]
              congr 1
              omega
      have hfilter : ((backing.drop j).take (fuel + 1)).filter (fun i => i ≠ item)
          = backing[j] :: ((backing.drop (j + 1)).take fuel).filter (fun i => i ≠ item) := by
        rw [hdrop, List.take_succ_cons, List.filter_cons]
        have hd : (decide (backing[j] ≠ item)) = true := by simp [hitem]
        rw [if_pos hd]
      refine ⟨?_, ?_, ?_⟩
      · rw [hstep, h2.1, htake, hdropset, hfilter, List.append_assoc, List.singleton_append]
      · rw [hstep, h2.2.1, hdropset, hfilter, List.length_cons]
        omega
      · rw [hstep, h2.2.2, hlenset]

/-- The visible elements after `findAndDelete` are exactly the visible
elements of the input slice that differ from `item`, in order. -/
theorem findAndDelete_view (sl : GoSlice) (item : Nat) (hwf : sl.wf) :
    (findAndDelete sl item).view = sl.view.filter (fun i => i ≠ item) := by
  have h := fadGo_spec item sl.len sl.backing 0 0 (Nat.le_refl 0)
    (by simpa [GoSlice.wf] using hwf)
  simpa [findAndDelete, GoSlice.view] using h.1

/-- `findAndDelete` preserves slice well-formedness. -/
theorem findAndDelete_wf (sl : GoSlice) (item : Nat) (hwf : sl.wf) :
    (findAndDelete sl item).wf := by
  have h := fadGo_spec item sl.len sl.backing 0 0 (Nat.le_refl 0)
    (by simpa [GoSlice.wf] using hwf)
  have hlen := h.2.2
  have hidx := h.2.1
  simp only [List.drop_zero] at hidx
  simp only [GoSlice.wf, findAndDelete, hlen, hidx]
  have hfil : ((sl.backing.take sl.len).filter (fun i => i ≠ item)).length
      ≤ (sl.backing.take sl.len).length := List.length_filter_le _ _
  have h2 : (sl.backing.take sl.len).length ≤ sl.backing.length := by
    simp [List.length_take]
  omega

theorem clearTimeout_running (s : LoopState) (h : Option Nat) :
    (clearTimeout s h).running = s.running := by
  cases h with
  | none => rfl
  | some t =>
    cases hl : List.lookup t s.timersHeap with
    | none => simp [clearTimeout, hl]
    | some obj =>
      by_cases hc : obj.cancelled <;> simp [clearTimeout, hl, hc]

theorem clearInterval_running (s : LoopState) (h : Option Nat) :
    (clearInterval s h).running = s.running := by
  cases h with
  | none => rfl
  | some t =>
    cases hl : List.lookup t s.intervalsHeap with
    | none => simp [clearInterval, hl]
    | some obj =>
      by_cases hc : obj.cancelled <;> simp [clearInterval, hl, hc]

theorem clearImmediate_running (s : LoopState) (h : Option Nat) :
    (clearImmediate s h).running = s.running := by
  cases h with
  | none => rfl
  | some t =>
    cases hl : List.lookup t s.immediatesHeap with
    | none => simp [clearImmediate, hl]
    | some obj =>
      by_cases hc : obj.cancelled <;> simp [clearImmediate, hl, hc]

theorem stopImmediatesGo_running (fuel : Nat) :
    ∀ s j, (stopImmediatesGo s j fuel).running = s.running := by
  induction fuel with
  | zero => intro s j; rfl
  | succ fuel ih =>
    intro s j
    rw [stopImmediatesGo, ih, clearImmediate_running]

theorem stopIntervalsGo_running (fuel : Nat) :
    ∀ s j, (stopIntervalsGo s j fuel).running = s.running := by
  induction fuel with
  | zero => intro s j; rfl
  | succ fuel ih =>
    intro s j
    rw [stopIntervalsGo, ih, clearInterval_running]

theorem stopTimeoutsGo_running (fuel : Nat) :
    ∀ s j, (stopTimeoutsGo s j fuel).running = s.running := by
  induction fuel with
  | zero => intro s j; rfl
  | succ fuel ih =>
    intro s j
    rw [stopTimeoutsGo, ih, clearTimeout_running]

/-- `stopTimers` never touches the `running` flag. -/
theorem stopTimers_running (s : LoopState) : (stopTimers s).running = s.running := by
  unfold stopTimers
  rw [stopTimeoutsGo_running, stopIntervalsGo_running, stopImmediatesGo_running]


/-! ## Claim theorems -/

/-- C10: `findAndDelete(s, item)` returns a slice containing exactly the
elements of `s` that are not pointer-identical to `item`, in their
original relative order; when `item` does not occur in `s` the returned
slice has the same elements as `s`. -/
theorem C10_findAndDelete_filter (sl : GoSlice) (item : Nat) (hwf : sl.wf) :
    (findAndDelete sl item).view = sl.view.filter (fun i => i ≠ item)
    ∧ (item ∉ sl.view → (findAndDelete sl item).view = sl.view) := by
  refine ⟨findAndDelete_view sl item hwf, fun hmem => ?_⟩
  rw [findAndDelete_view sl item hwf]
  refine List.filter_eq_self.mpr (fun a ha => ?_)
  simp only [decide_eq_true_eq]
  exact fun he => hmem (he ▸ ha)

/-- Witness for C10 at a concrete slice. -/
theorem C10_findAndDelete_filter_witness :
    (findAndDelete ⟨[1, 2, 2, 3], 4⟩ 2).view
        = (GoSlice.view ⟨[1, 2, 2, 3], 4⟩).filter (fun i => i ≠ 2)
    ∧ (2 ∉ GoSlice.view ⟨[1, 2, 2, 3], 4⟩ →
        (findAndDelete ⟨[1, 2, 2, 3], 4⟩ 2).view = GoSlice.view ⟨[1, 2, 2, 3], 4⟩) :=
  C10_findAndDelete_filter ⟨[1, 2, 2, 3], 4⟩ 2 (by decide)

/-- C5: one drain of the auxiliary queue (`runAux`) runs each submitted
closure exactly once and in submission (FIFO) order: the executed log is
extended by exactly the queued submissions, in queue order; in particular
three `RunOnLoop`-style submissions `a`, `b`, `c` made in that order from
one goroutine are drained as `a`, `b`, `c`. -/
theorem C5_runAux_fifo (s : AuxState) (a b c : Nat) :
    (runAux s).executed = s.executed ++ s.auxJobs
    ∧ (runAux (addAuxJob (addAuxJob (addAuxJob s a) b) c)).executed
        = s.executed ++ (s.auxJobs ++ [a, b, c]) := by
  constructor
  · rfl
  · simp [runAux, addAuxJob]

/-- C8 counterexample: the conversion `delay * time.Millisecond` performed
by `setInterval` is an int64 multiplication that wraps: for
`delay = -9223372036855` the product wraps to the positive duration
`9223372036854551616` ns, so this non-positive delay escapes the clamp
entirely instead of behaving as the 1 ms minimum tick, while for
`delay = 9223372036855` the product wraps negative and this positive
delay IS clamped to one millisecond rather than used unchanged. -/
theorem C8_counterexample_int64_wrap :
    setIntervalDelay (-9223372036855) = 9223372036854551616
    ∧ millisecond < setIntervalDelay (-9223372036855)
    ∧ setIntervalDelay 9223372036855 = millisecond
    ∧ setIntervalDelay 9223372036855 ≠ 9223372036855 * millisecond := by decide

/-- C8 amended: the clamp in `addInterval` applies to the int64 duration it
receives: whenever the conversion `delay * time.Millisecond` does not
overflow int64 (`-9223372036854 ≤ delay ≤ 9223372036854`), a delay
`≤ 0` passed to `setInterval` behaves as the minimum tick unit of one
millisecond and a positive delay is used unchanged; an int64 duration
handed directly to `addInterval` is clamped exactly when it is
non-positive, and left unchanged when positive. -/
theorem C8_interval_delay_clamped_in_range (d t : Int) :
    (d ≤ 0 → -9223372036854 ≤ d → setIntervalDelay d = millisecond)
    ∧ (0 < d → d ≤ 9223372036854 → setIntervalDelay d = d * millisecond)
    ∧ (-(2 ^ 63) ≤ t → t < 2 ^ 63 → t ≤ 0 → addIntervalTimeout t = millisecond)
    ∧ (-(2 ^ 63) ≤ t → t < 2 ^ 63 → 0 < t → addIntervalTimeout t = t) := by
  have h63 : (2 : Int) ^ 63 = 9223372036854775808 := by norm_num
  have hms : millisecond = 1000000 := rfl
  refine ⟨?_, ?_, ?_, ?_⟩
  · intro hd hlo
    have hp1 : -((2 : Int) ^ 63) ≤ d * millisecond := by rw [h63, hms]; omega
    have hp2 : d * millisecond < 2 ^ 63 := by rw [h63, hms]; omega
    unfold setIntervalDelay
    rw [toInt64_eq_self _ hp1 hp2]
    unfold addIntervalTimeout
    rw [if_pos (show d * millisecond ≤ 0 by rw [hms]; omega)]
  · intro hd hhi
    have hp1 : -((2 : Int) ^ 63) ≤ d * millisecond := by rw [h63, hms]; omega
    have hp2 : d * millisecond < 2 ^ 63 := by rw [h63, hms]; omega
    unfold setIntervalDelay
    rw [toInt64_eq_self _ hp1 hp2]
    unfold addIntervalTimeout
    rw [if_neg (show ¬d * millisecond ≤ 0 by rw [hms]; omega)]
  · intro _ _ ht
    unfold addIntervalTimeout
    rw [if_pos ht]
  · intro _ _ ht
    unfold addIntervalTimeout
    rw [if_neg (not_le.mpr ht)]

/-- Witness for the amended C8 at the concrete delays -5 and 7 and the
concrete durations -3 and 42. -/
theorem C8_interval_delay_clamped_in_range_witness :
    setIntervalDelay (-5) = millisecond
    ∧ setIntervalDelay 7 = 7 * millisecond
    ∧ addIntervalTimeout (-3) = millisecond
    ∧ addIntervalTimeout 42 = 42 :=
  ⟨(C8_interval_delay_clamped_in_range (-5) (-3)).1 (by decide) (by decide),
   (C8_interval_delay_clamped_in_range 7 42).2.1 (by decide) (by decide),
   (C8_interval_delay_clamped_in_range (-5) (-3)).2.2.1 (by decide) (by decide) (by decide),
   (C8_interval_delay_clamped_in_range 7 42).2.2.2 (by decide) (by decide) (by decide)⟩

/-- C7: starting an already-running loop panics instead of silently
starting a second tick loop: `Run` and `Start` both go through
`setRunning`, which panics (modeled as `none`) when `running` is already
set; a successful `Start` marks the loop running, so a second `Start` or
`Run` on it panics. -/
theorem C7_start_on_running_panics (s s' : LoopState) :
    (s.running = true → Start s = none ∧ Run s = none)
    ∧ (Start s = some s' → s'.running = true ∧ Start s' = none ∧ Run s' = none) := by
  constructor
  · intro hr
    simp [Start, Run, setRunning, hr]
  · intro hs
    by_cases hr : s.running
    · simp [Start, setRunning, hr] at hs
    · simp [Start, setRunning, hr] at hs
      subst hs
      simp [Start, Run, setRunning]

/-- Witness for C7 on a concrete running loop. -/
theorem C7_start_on_running_panics_witness :
    Start ⟨[], [], [], ⟨[], 0⟩, ⟨[], 0⟩, ⟨[], 0⟩, 0, true, true, []⟩ = none
    ∧ Run ⟨[], [], [], ⟨[], 0⟩, ⟨[], 0⟩, ⟨[], 0⟩, 0, true, true, []⟩ = none :=
  (C7_start_on_running_panics
    ⟨[], [], [], ⟨[], 0⟩, ⟨[], 0⟩, ⟨[], 0⟩, 0, true, true, []⟩
    ⟨[], [], [], ⟨[], 0⟩, ⟨[], 0⟩, ⟨[], 0⟩, 0, true, true, []⟩).1 rfl

/-- C3: the receive in `StartInForeground` is never completed by a
begin-running signal: the `_running(true)` attempt of `setRunning`
precedes the receive and is dropped by the select default (second
conjunct: with only that attempt the receive never completes), so the
receive is completed by the `_running(false)` attempt made when the tick
loop exits, delivering `false`.  `StartInForeground` therefore stays
blocked until the loop terminates, not merely until it has begun
running. -/
theorem C3_receive_pairs_with_loop_exit :
    recvFirstMatch startInForegroundSends = some false
    ∧ recvFirstMatch [⟨true, false⟩] = none := by decide

/-- C2: on a loop holding a single live `setTimeout` timer (id 0, tracked
in `loop.timers`, `jobCount = 1`), firing the timer runs the user
callback, marks the timer cancelled and decrements `jobCount`, but the
timer is NOT removed from `loop.timers`: `doTimeout` sets `cancelled`
before invoking the wrapper, whose `clearTimeout` call then finds the
timer already cancelled and does nothing. -/
theorem C2_fired_timer_not_removed :
    (doTimeout ⟨[(0, ⟨false⟩)], [], [], ⟨[0], 1⟩, ⟨[], 0⟩, ⟨[], 0⟩, 1, true, true, []⟩ 0).timers.view
        = [0]
    ∧ List.lookup 0
        (doTimeout ⟨[(0, ⟨false⟩)], [], [], ⟨[0], 1⟩, ⟨[], 0⟩, ⟨[], 0⟩, 1, true, true, []⟩ 0).timersHeap
        = some ⟨true⟩
    ∧ (doTimeout ⟨[(0, ⟨false⟩)], [], [], ⟨[0], 1⟩, ⟨[], 0⟩, ⟨[], 0⟩, 1, true, true, []⟩ 0).userRuns
        = [0]
    ∧ (doTimeout ⟨[(0, ⟨false⟩)], [], [], ⟨[0], 1⟩, ⟨[], 0⟩, ⟨[], 0⟩, 1, true, true, []⟩ 0).jobCount
        = 0 := by decide

/-- C1 counterexample: a non-running loop with one unfinished timer at the
moment of the call (live, tracked in `loop.timers`, `jobCount = 1`):
`Stop` returns `0`, not a strictly positive count, because `stopTimers`
cancels the timer (decrementing `jobCount`) before the count is read. -/
theorem C1_counterexample :
    List.lookup 0
        (⟨[(0, ⟨false⟩)], [], [], ⟨[0], 1⟩, ⟨[], 0⟩, ⟨[], 0⟩, 1, false, false, []⟩ : LoopState).timersHeap
        = some ⟨false⟩
    ∧ (⟨[(0, ⟨false⟩)], [], [], ⟨[0], 1⟩, ⟨[], 0⟩, ⟨[], 0⟩, 1, false, false, []⟩ : LoopState).timers.view
        = [0]
    ∧ (⟨[(0, ⟨false⟩)], [], [], ⟨[0], 1⟩, ⟨[], 0⟩, ⟨[], 0⟩, 1, false, false, []⟩ : LoopState).jobCount
        = 1
    ∧ (Stop ⟨[(0, ⟨false⟩)], [], [], ⟨[0], 1⟩, ⟨[], 0⟩, ⟨[], 0⟩, 1, false, false, []⟩).map Prod.snd
        = some 0 := by decide

/-- C1 amended: `Stop()` returns the `jobCount` remaining after
`stopTimers` has cancelled the tracked handles, not the number of jobs
pending at call time: it returns `0` on a loop with no outstanding work,
and it equally returns `0` when a single unfinished timer existed at the
call moment, since that timer is cancelled (and its `jobCount` unit
removed) before the count is read. -/
theorem C1_amended_stop_returns_post_cancel_count (t : Nat) :
    (Stop ⟨[], [], [], ⟨[], 0⟩, ⟨[], 0⟩, ⟨[], 0⟩, 0, false, false, []⟩).map Prod.snd = some 0
    ∧ (Stop ⟨[(t, ⟨false⟩)], [], [], ⟨[t], 1⟩, ⟨[], 0⟩, ⟨[], 0⟩, 1, false, false, []⟩).map Prod.snd
        = some 0 := by
  constructor
  · decide
  · simp [Stop, stopTimers, stopImmediatesGo, stopIntervalsGo, stopTimeoutsGo,
      clearTimeout, List.lookup_cons, findAndDelete, fadGo, updHeap]

/-- C9 counterexample: a non-running loop with three live immediates
`0, 1, 2` (each tracked, `jobCount = 3`): after `Stop`, immediate `1` is
still uncancelled and still in the visible list, and `jobCount` is `1`,
not `0` — `stopTimers` did not cancel every tracked handle and did not
decrement `jobCount` for each. -/
theorem C9_counterexample :
    (Stop ⟨[], [], [(0, ⟨false⟩), (1, ⟨false⟩), (2, ⟨false⟩)],
        ⟨[], 0⟩, ⟨[], 0⟩, ⟨[0, 1, 2], 3⟩, 3, false, false, []⟩).map
      (fun p => (p.2, p.1.immediates.view, List.lookup 1 p.1.immediatesHeap))
      = some (1, [1], some ⟨false⟩) := by decide

/-- C9 amended: on a non-running loop `Stop()` still runs `stopTimers()`
before the running check and returns at once (the wait loop is guarded by
`running`), cancelling handles and decrementing `jobCount` once per
handle it actually cancels; but because each cancellation compacts the
tracking list in place while the `range` iterates the originally captured
header, a list of three or more live handles has some of them skipped:
with two live immediates both are cancelled and `jobCount` reaches `0`,
while with three live immediates `0, 1, 2` only `0` and `2` are cancelled,
immediate `1` stays live and `jobCount` ends at `1`. -/
theorem C9_amended_stop_cancels_visited_handles :
    Stop (⟨[], [], [(5, ⟨false⟩), (7, ⟨false⟩)],
        ⟨[], 0⟩, ⟨[], 0⟩, ⟨[5, 7], 2⟩, 2, false, false, []⟩ : LoopState)
      = some (⟨[], [], [(5, ⟨true⟩), (7, ⟨true⟩)],
        ⟨[], 0⟩, ⟨[], 0⟩, ⟨[7, 7], 0⟩, 0, false, false, []⟩, 0)
    ∧ (Stop ⟨[], [], [(0, ⟨false⟩), (1, ⟨false⟩), (2, ⟨false⟩)],
        ⟨[], 0⟩, ⟨[], 0⟩, ⟨[0, 1, 2], 3⟩, 3, false, false, []⟩).map
      (fun p => (p.2, p.1.immediates.view,
        List.lookup 0 p.1.immediatesHeap, List.lookup 1 p.1.immediatesHeap,
        List.lookup 2 p.1.immediatesHeap))
      = some (1, [1], some ⟨true⟩, some ⟨false⟩, some ⟨true⟩) := by decide

/-- C4: every public cancel operation is idempotent: for a live handle the
first effective cancellation marks it cancelled, decrements `jobCount`
exactly once and removes the handle from its tracking list (and for an
interval also closes its stop channel exactly once); cancelling the same
handle again — after a prior cancel or after the handle has fired —
changes nothing: no second `jobCount` decrement, no underflow from this
handle, no double close. -/
theorem C4_cancel_idempotent (s : LoopState) (t i m : Nat) :
    clearTimeout (clearTimeout s (some t)) (some t) = clearTimeout s (some t)
    ∧ clearInterval (clearInterval s (some i)) (some i) = clearInterval s (some i)
    ∧ clearImmediate (clearImmediate s (some m)) (some m) = clearImmediate s (some m)
    ∧ clearTimeout (doTimeout s t) (some t) = doTimeout s t
    ∧ clearImmediate (doImmediate s m) (some m) = doImmediate s m
    ∧ (∀ obj, List.lookup t s.timersHeap = some obj → obj.cancelled = false → s.timers.wf →
        (clearTimeout s (some t)).jobCount = s.jobCount - 1
        ∧ List.lookup t (clearTimeout s (some t)).timersHeap = some ⟨true⟩
        ∧ (clearTimeout s (some t)).timers.view = s.timers.view.filter (fun x => x ≠ t))
    ∧ (∀ obj, List.lookup i s.intervalsHeap = some obj → obj.cancelled = false →
        s.intervals.wf →
        (clearInterval s (some i)).jobCount = s.jobCount - 1
        ∧ List.lookup i (clearInterval s (some i)).intervalsHeap = some ⟨true, true⟩
        ∧ (clearInterval s (some i)).intervals.view = s.intervals.view.filter (fun x => x ≠ i))
    ∧ (∀ obj, List.lookup m s.immediatesHeap = some obj → obj.cancelled = false →
        s.immediates.wf →
        (clearImmediate s (some m)).jobCount = s.jobCount - 1
        ∧ List.lookup m (clearImmediate s (some m)).immediatesHeap = some ⟨true⟩
        ∧ (clearImmediate s (some m)).immediates.view
            = s.immediates.view.filter (fun x => x ≠ m)) := by
  refine ⟨?_, ?_, ?_, ?_, ?_, ?_, ?_, ?_⟩
  · cases hl : List.lookup t s.timersHeap with
    | none => simp [clearTimeout, hl]
    | some obj =>
      by_cases hc : obj.cancelled
      · simp [clearTimeout, hl, hc]
      · simp [clearTimeout, hl, hc, lookup_updHeap_self]
  · cases hl : List.lookup i s.intervalsHeap with
    | none => simp [clearInterval, hl]
    | some obj =>
      by_cases hc : obj.cancelled
      · simp [clearInterval, hl, hc]
      · simp [clearInterval, hl, hc, lookup_updHeap_self]
  · cases hl : List.lookup m s.immediatesHeap with
    | none => simp [clearImmediate, hl]
    | some obj =>
      by_cases hc : obj.cancelled
      · simp [clearImmediate, hl, hc]
      · simp [clearImmediate, hl, hc, lookup_updHeap_self]
  · cases hl : List.lookup t s.timersHeap with
    | none => simp [doTimeout, clearTimeout, hl]
    | some obj =>
      by_cases hc : obj.cancelled
      · simp [doTimeout, clearTimeout, hl, hc]
      · simp [doTimeout, clearTimeout, hl, hc, lookup_updHeap_self]
  · cases hl : List.lookup m s.immediatesHeap with
    | none => simp [doImmediate, clearImmediate, hl]
    | some obj =>
      by_cases hc : obj.cancelled
      · simp [doImmediate, clearImmediate, hl, hc]
      · simp [doImmediate, clearImmediate, hl, hc, lookup_updHeap_self]
  · intro obj hl hc hwf
    refine ⟨by simp [clearTimeout, hl, hc], ?_, ?_⟩
    · simp [clearTimeout, hl, hc, lookup_updHeap_self]
    · have : (clearTimeout s (some t)).timers = findAndDelete s.timers t := by
        simp [clearTimeout, hl, hc]
      rw [this]
      exact findAndDelete_view s.timers t hwf
  · intro obj hl hc hwf
    refine ⟨by simp [clearInterval, hl, hc], ?_, ?_⟩
    · simp [clearInterval, hl, hc, lookup_updHeap_self]
    · have : (clearInterval s (some i)).intervals = findAndDelete s.intervals i := by
        simp [clearInterval, hl, hc]
      rw [this]
      exact findAndDelete_view s.intervals i hwf
  · intro obj hl hc hwf
    refine ⟨by simp [clearImmediate, hl, hc], ?_, ?_⟩
    · simp [clearImmediate, hl, hc, lookup_updHeap_self]
    · have : (clearImmediate s (some m)).immediates = findAndDelete s.immediates m := by
        simp [clearImmediate, hl, hc]
      rw [this]
      exact findAndDelete_view s.immediates m hwf

/-- Witness for C4 on a concrete loop with one live handle of each kind. -/
theorem C4_cancel_idempotent_witness :
    ((clearTimeout (⟨[(1, ⟨false⟩)], [(2, ⟨false, false⟩)], [(3, ⟨false⟩)],
        ⟨[1], 1⟩, ⟨[2], 1⟩, ⟨[3], 1⟩, 3, false, false, []⟩ : LoopState) (some 1)).jobCount
        = (3 : Int) - 1
      ∧ List.lookup 1 (clearTimeout (⟨[(1, ⟨false⟩)], [(2, ⟨false, false⟩)], [(3, ⟨false⟩)],
          ⟨[1], 1⟩, ⟨[2], 1⟩, ⟨[3], 1⟩, 3, false, false, []⟩ : LoopState) (some 1)).timersHeap
        = some ⟨true⟩
      ∧ (clearTimeout (⟨[(1, ⟨false⟩)], [(2, ⟨false, false⟩)], [(3, ⟨false⟩)],
          ⟨[1], 1⟩, ⟨[2], 1⟩, ⟨[3], 1⟩, 3, false, false, []⟩ : LoopState) (some 1)).timers.view
        = (GoSlice.view ⟨[1], 1⟩).filter (fun x => x ≠ 1))
    ∧ ((clearInterval (⟨[(1, ⟨false⟩)], [(2, ⟨false, false⟩)], [(3, ⟨false⟩)],
        ⟨[1], 1⟩, ⟨[2], 1⟩, ⟨[3], 1⟩, 3, false, false, []⟩ : LoopState) (some 2)).jobCount
        = (3 : Int) - 1
      ∧ List.lookup 2 (clearInterval (⟨[(1, ⟨false⟩)], [(2, ⟨false, false⟩)], [(3, ⟨false⟩)],
          ⟨[1], 1⟩, ⟨[2], 1⟩, ⟨[3], 1⟩, 3, false, false, []⟩ : LoopState) (some 2)).intervalsHeap
        = some ⟨true, true⟩
      ∧ (clearInterval (⟨[(1, ⟨false⟩)], [(2, ⟨false, false⟩)], [(3, ⟨false⟩)],
          ⟨[1], 1⟩, ⟨[2], 1⟩, ⟨[3], 1⟩, 3, false, false, []⟩ : LoopState) (some 2)).intervals.view
        = (GoSlice.view ⟨[2], 1⟩).filter (fun x => x ≠ 2))
    ∧ ((clearImmediate (⟨[(1, ⟨false⟩)], [(2, ⟨false, false⟩)], [(3, ⟨false⟩)],
        ⟨[1], 1⟩, ⟨[2], 1⟩, ⟨[3], 1⟩, 3, false, false, []⟩ : LoopState) (some 3)).jobCount
        = (3 : Int) - 1
      ∧ List.lookup 3 (clearImmediate (⟨[(1, ⟨false⟩)], [(2, ⟨false, false⟩)], [(3, ⟨false⟩)],
          ⟨[1], 1⟩, ⟨[2], 1⟩, ⟨[3], 1⟩, 3, false, false, []⟩ : LoopState) (some 3)).immediatesHeap
        = some ⟨true⟩
      ∧ (clearImmediate (⟨[(1, ⟨false⟩)], [(2, ⟨false, false⟩)], [(3, ⟨false⟩)],
          ⟨[1], 1⟩, ⟨[2], 1⟩, ⟨[3], 1⟩, 3, false, false, []⟩ : LoopState) (some 3)).immediates.view
        = (GoSlice.view ⟨[3], 1⟩).filter (fun x => x ≠ 3)) :=
  ⟨(C4_cancel_idempotent
      ⟨[(1, ⟨false⟩)], [(2, ⟨false, false⟩)], [(3, ⟨false⟩)],
        ⟨[1], 1⟩, ⟨[2], 1⟩, ⟨[3], 1⟩, 3, false, false, []⟩ 1 2 3).2.2.2.2.2.1
      ⟨false⟩ rfl rfl (by decide),
   (C4_cancel_idempotent
      ⟨[(1, ⟨false⟩)], [(2, ⟨false, false⟩)], [(3, ⟨false⟩)],
        ⟨[1], 1⟩, ⟨[2], 1⟩, ⟨[3], 1⟩, 3, false, false, []⟩ 1 2 3).2.2.2.2.2.2.1
      ⟨false, false⟩ rfl rfl (by decide),
   (C4_cancel_idempotent
      ⟨[(1, ⟨false⟩)], [(2, ⟨false, false⟩)], [(3, ⟨false⟩)],
        ⟨[1], 1⟩, ⟨[2], 1⟩, ⟨[3], 1⟩, 3, false, false, []⟩ 1 2 3).2.2.2.2.2.2.2
      ⟨false⟩ rfl rfl (by decide)⟩

/-- C6: the fire-time job of a `setTimeout` timer first checks the
`cancelled` flag: when the timer was already cancelled nothing happens —
in particular the callback does not run after cancellation; when it is
live, the timer is marked cancelled, `jobCount` is decremented by one,
and the callback is invoked (appended once to the run log); firing is
idempotent, so the callback runs at most once per timer. -/
theorem C6_doTimeout_fires_at_most_once (s : LoopState) (t : Nat) :
    (∀ obj, List.lookup t s.timersHeap = some obj → obj.cancelled = true → doTimeout s t = s)
    ∧ (∀ obj, List.lookup t s.timersHeap = some obj → obj.cancelled = false →
        (doTimeout s t).userRuns = s.userRuns ++ [t]
        ∧ List.lookup t (doTimeout s t).timersHeap = some ⟨true⟩
        ∧ (doTimeout s t).jobCount = s.jobCount - 1)
    ∧ doTimeout (doTimeout s t) t = doTimeout s t := by
  refine ⟨?_, ?_, ?_⟩
  · intro obj hl hc
    simp [doTimeout, hl, hc]
  · intro obj hl hc
    refine ⟨?_, ?_, ?_⟩
    · simp [doTimeout, clearTimeout, hl, hc, lookup_updHeap_self]
    · simp [doTimeout, clearTimeout, hl, hc, lookup_updHeap_self]
    · simp [doTimeout, clearTimeout, hl, hc, lookup_updHeap_self]
  · cases hl : List.lookup t s.timersHeap with
    | none => simp [doTimeout, hl]
    | some obj =>
      by_cases hc : obj.cancelled
      · simp [doTimeout, hl, hc]
      · simp [doTimeout, clearTimeout, hl, hc, lookup_updHeap_self]

/-- Witness for C6 on a concrete loop with one live timer. -/
theorem C6_doTimeout_fires_at_most_once_witness :
    ((doTimeout (⟨[(4, ⟨false⟩)], [], [], ⟨[4], 1⟩, ⟨[], 0⟩, ⟨[], 0⟩, 1, true, true, []⟩ : LoopState) 4).userRuns
        = [] ++ [4]
      ∧ List.lookup 4
          (doTimeout (⟨[(4, ⟨false⟩)], [], [], ⟨[4], 1⟩, ⟨[], 0⟩, ⟨[], 0⟩, 1, true, true, []⟩ : LoopState) 4).timersHeap
        = some ⟨true⟩
      ∧ (doTimeout (⟨[(4, ⟨false⟩)], [], [], ⟨[4], 1⟩, ⟨[], 0⟩, ⟨[], 0⟩, 1, true, true, []⟩ : LoopState) 4).jobCount
        = (1 : Int) - 1)
    ∧ doTimeout
        (doTimeout (⟨[(4, ⟨false⟩)], [], [], ⟨[4], 1⟩, ⟨[], 0⟩, ⟨[], 0⟩, 1, true, true, []⟩ : LoopState) 4) 4
      = doTimeout (⟨[(4, ⟨false⟩)], [], [], ⟨[4], 1⟩, ⟨[], 0⟩, ⟨[], 0⟩, 1, true, true, []⟩ : LoopState) 4 :=
  ⟨(C6_doTimeout_fires_at_most_once
      ⟨[(4, ⟨false⟩)], [], [], ⟨[4], 1⟩, ⟨[], 0⟩, ⟨[], 0⟩, 1, true, true, []⟩ 4).2.1
      ⟨false⟩ rfl rfl,
   (C6_doTimeout_fires_at_most_once
      ⟨[(4, ⟨false⟩)], [], [], ⟨[4], 1⟩, ⟨[], 0⟩, ⟨[], 0⟩, 1, true, true, []⟩ 4).2.2⟩

/-- Witness for C5 at a concrete queue state and submissions. -/
theorem C5_runAux_fifo_witness :
    (runAux ⟨[10], [], [9]⟩).executed = [9] ++ [10]
    ∧ (runAux (addAuxJob (addAuxJob (addAuxJob ⟨[10], [], [9]⟩ 11) 12) 13)).executed
        = [9] ++ ([10] ++ [11, 12, 13]) :=
  C5_runAux_fifo ⟨[10], [], [9]⟩ 11 12 13

/-- Witness for the amended C1 at the concrete timer id 9. -/
theorem C1_amended_stop_returns_post_cancel_count_witness :
    (Stop ⟨[], [], [], ⟨[], 0⟩, ⟨[], 0⟩, ⟨[], 0⟩, 0, false, false, []⟩).map Prod.snd = some 0
    ∧ (Stop ⟨[(9, ⟨false⟩)], [], [], ⟨[9], 1⟩, ⟨[], 0⟩, ⟨[], 0⟩, 1, false, false, []⟩).map Prod.snd
        = some 0 :=
  C1_amended_stop_returns_post_cancel_count 9
